import Mathlib

/-!
# Pod metric cache of aibrix (`pkg/cache/cache_metrics.go`)

A shallow embedding of the metric extraction pipeline and of the pod metric
cache write and read paths, followed by the properties proved about them.

Conventions of the embedding.

* A Go map (`map[string]T`, `utils.SyncMap[string, T]`) is a function
  `String → Option T`; `Store` overrides one key, `Load` reads one key.
* A `*Pod` is passed and returned explicitly: a function that mutates the maps
  of the pod returns the pod it leaves behind.
* A Go `error` is an `Option`: `none` is `nil`.
* A call that dereferences a nil value ends in `Outcome.panicked`.
* `klog` calls only log; what is kept of them is the evaluation of their
  arguments (`err.Error()` in `fetchMetrics`).
* The decoded payload holds families and samples, never nil pointers: the
  exposition parser builds none.
* Everything the file imports from other packages of the repository (the
  catalog `metrics.Metrics`, the identifier constants, `getPodLabel`,
  `getPodMetricPort`, the `metrics.Get...` extractors, `metrics.BuildQuery`,
  the label constants) is a field of `Env`; the Prometheus client is a
  parameter of the functions that query it.
-/

namespace Aibrix

/-! ## Types declared outside `cache_metrics.go` -/

/-- The type `metrics.MetricScope`: a string type with two named values;
`unsupported` stands for every other string, which `updatePodRecord` and
`updateMetricFromPromQL` reject. -/
inductive MetricScope where
  | PodMetricScope
  | PodModelMetricScope
  | unsupported (name : String)
  deriving DecidableEq

/-- Modelled from the spec: the tagged union `metrics.MetricValue` (declared in
`pkg/metrics`): a scalar, a histogram with its ordered buckets, a label value,
or the result of a time-series query (kept as its rendered form). -/
inductive MetricValue where
  | SimpleMetricValue (Value : Float)
  | HistogramMetricValue (Sum Count : Float) (Buckets : List (Float × Float))
  | LabelValueMetricValue (Value : String)
  | PrometheusMetricValue (Result : String)

/-- Modelled from the spec: `utils.SyncMap[string, V]` (declared in
`pkg/utils`), a concurrency-safe mapping read and written one key at a time.
Only its contents are modelled. -/
def SyncMap (V : Type) : Type := String → Option V

namespace SyncMap

/-- The map with no entry: a store that has never been written. -/
def empty {V : Type} : SyncMap V := fun _ => none

/-- The method `Load`: the value stored under the key, if any. -/
def Load {V : Type} (m : SyncMap V) (key : String) : Option V := m key

/-- The method `Store`: overwrite the entry of one key. -/
def Store {V : Type} (m : SyncMap V) (key : String) (value : V) : SyncMap V :=
  fun k => if k = key then some value else m k

end SyncMap

/-- The type `Pod` of the cache package: the fields of the embedded Kubernetes
pod that the file reads, the registry of served models, and the two metric
maps. -/
structure Pod where
  Name : String
  PodIP : String
  Labels : List (String × String)
  Models : List String
  Metrics : SyncMap MetricValue
  ModelMetrics : SyncMap MetricValue

/-- The type `metrics.Metric`: one catalog definition, restricted to the fields
the file reads. -/
structure Metric where
  MetricScope : MetricScope
  RawMetricName : String
  PromQL : String
  EngineMetricsNameMapping : String → Option String

/-- The enumeration `dto.MetricType` of the Prometheus client model. -/
inductive DtoMetricType where
  | COUNTER
  | GAUGE
  | SUMMARY
  | UNTYPED
  | HISTOGRAM
  | GAUGE_HISTOGRAM
  deriving DecidableEq

/-- The histogram payload of a sample, as `metrics.GetHistogramValue` returns
it. -/
structure HistogramData where
  Sum : Float
  Count : Float
  Buckets : List (Float × Float)

/-- The type `dto.Metric`: one sample of a family, with its label pairs and the
value fields the extractors read. -/
structure DtoMetric where
  Label : List (String × String)
  Gauge : Option Float
  Counter : Option Float
  Histogram : Option HistogramData

/-- The type `dto.MetricFamily`: a declared type and the samples. -/
structure MetricFamily where
  Name : String
  FamilyType : DtoMetricType
  Metric : List DtoMetric

/-- The type `CacheError` with the one value the file uses. -/
inductive CacheError where
  | ErrorTypeMetricNotFound
  deriving DecidableEq

/-- The type `MetricNotFoundError` of the cache package. -/
structure MetricNotFoundError where
  CacheError : CacheError
  PodName : String
  MetricName : String
  deriving DecidableEq

/-- The two errors `updatePodRecord` builds with `fmt.Errorf`, each carrying
the scope it formats into its message. -/
inductive UpdateError where
  | modelNameEmpty (scope : MetricScope)
  | scopeNotSupported (scope : MetricScope)
  deriving DecidableEq

/-- The result of a call that may dereference nil. -/
inductive Outcome (α : Type) where
  | returned (a : α)
  | panicked

/-- The identifier constants of `pkg/metrics` that the four static lists
name. -/
structure MetricNames where
  NumRequestsRunning : String
  NumRequestsWaiting : String
  NumRequestsSwapped : String
  AvgPromptThroughputToksPerS : String
  AvgGenerationThroughputToksPerS : String
  GPUCacheUsagePerc : String
  CPUCacheUsagePerc : String
  EngineUtilization : String
  IterationTokensTotal : String
  TimeToFirstTokenSeconds : String
  TimePerOutputTokenSeconds : String
  E2ERequestLatencySeconds : String
  RequestQueueTimeSeconds : String
  RequestInferenceTimeSeconds : String
  RequestDecodeTimeSeconds : String
  RequestPrefillTimeSeconds : String
  P95TTFT5m : String
  P95TTFT5mPod : String
  AvgTTFT5mPod : String
  P95TPOT5mPod : String
  AvgTPOT5mPod : String
  AvgPromptToksPerReq : String
  AvgGenerationToksPerReq : String
  AvgE2ELatencyPod : String
  AvgRequestsPerMinPod : String
  AvgPromptThroughputToksPerMinPod : String
  AvgGenerationThroughputToksPerMinPod : String
  MaxLora : String
  WaitingLoraAdapters : String
  RunningLoraAdapters : String

/-- What `cache_metrics.go` uses and does not declare: the catalog
`metrics.Metrics`, the helpers `getPodLabel` and `getPodMetricPort` of the cache
package, the extractors and the query builder of `pkg/metrics`, and the
constants. `getPodLabel` and `GetLabelValueForKey` return a string and an
error. -/
structure Env where
  Metrics : String → Option Metric
  names : MetricNames
  engineLabel : String
  modelLabel : String
  getPodLabel : Pod → String → String × Option String
  getPodMetricPort : Pod → Int
  GetLabelValueForKey : DtoMetric → String → String × Option String
  GetCounterGaugeValue : DtoMetric → DtoMetricType → Except String Float
  GetHistogramValue : DtoMetric → Except String HistogramData
  BuildQuery : String → (String → Option String) → String

/-! ## Constants and static lists -/

def defaultEngineLabelValue : String := "vllm"

def counterGaugeMetricNames (N : MetricNames) : List String :=
  [ N.NumRequestsRunning,
    N.NumRequestsWaiting,
    N.NumRequestsSwapped,
    N.AvgPromptThroughputToksPerS,
    N.AvgGenerationThroughputToksPerS,
    N.GPUCacheUsagePerc,
    N.CPUCacheUsagePerc,
    N.EngineUtilization ]

def histogramMetricNames (N : MetricNames) : List String :=
  [ N.IterationTokensTotal,
    N.TimeToFirstTokenSeconds,
    N.TimePerOutputTokenSeconds,
    N.E2ERequestLatencySeconds,
    N.RequestQueueTimeSeconds,
    N.RequestInferenceTimeSeconds,
    N.RequestDecodeTimeSeconds,
    N.RequestPrefillTimeSeconds ]

def prometheusMetricNames (N : MetricNames) : List String :=
  [ N.P95TTFT5m,
    N.P95TTFT5mPod,
    N.AvgTTFT5mPod,
    N.P95TPOT5mPod,
    N.AvgTPOT5mPod,
    N.AvgPromptToksPerReq,
    N.AvgGenerationToksPerReq,
    N.AvgE2ELatencyPod,
    N.AvgRequestsPerMinPod,
    N.AvgPromptThroughputToksPerMinPod,
    N.AvgGenerationThroughputToksPerMinPod ]

def labelQueryMetricNames (N : MetricNames) : List String :=
  [ N.MaxLora,
    N.WaitingLoraAdapters,
    N.RunningLoraAdapters ]

/-! ## Cache read and write paths -/

/-- The method `getPodMetricImpl`: the value and the error it returns. -/
def getPodMetricImpl (podName : String) (metricStore : SyncMap MetricValue)
    (metricName : String) : Option MetricValue × Option MetricNotFoundError :=
  match metricStore.Load metricName with
  | none =>
    (none, some
      { CacheError := CacheError.ErrorTypeMetricNotFound
        PodName := podName
        MetricName := metricName })
  | some metricVal => (some metricVal, none)

/-- The method `getPodModelMetricName`: `fmt.Sprintf("%s/%s", ...)`. -/
def getPodModelMetricName (modelName : String) (metricName : String) : String :=
  modelName ++ "/" ++ metricName

/-- The method `updatePodRecord`: the pod after the call and the error
returned. -/
def updatePodRecord (E : Env) (pod : Pod) (modelName : String) (metricName : String)
    (scope : MetricScope) (metricValue : MetricValue) : Pod × Option UpdateError :=
  match scope with
  | MetricScope.PodMetricScope =>
    ({ pod with Metrics := pod.Metrics.Store metricName metricValue }, none)
  | MetricScope.PodModelMetricScope =>
    if modelName = "" then
      match (E.getPodLabel pod E.modelLabel).2 with
      | some _ => (pod, some (UpdateError.modelNameEmpty scope))
      | none =>
        ({ pod with
            ModelMetrics := pod.ModelMetrics.Store
              (getPodModelMetricName (E.getPodLabel pod E.modelLabel).1 metricName)
              metricValue }, none)
    else
      ({ pod with
          ModelMetrics := pod.ModelMetrics.Store
            (getPodModelMetricName modelName metricName) metricValue }, none)
  | MetricScope.unsupported _ => (pod, some (UpdateError.scopeNotSupported scope))

/-! ## Resolution of a family -/

/-- The tail of `fetchMetrics` once the engine type is known: the raw name of
the definition for that engine, then the family under that raw name;
`none` stands for the result `(nil, false)`. -/
def fetchRaw (metric : Metric) (allMetrics : String → Option MetricFamily)
    (engineType : String) : Option MetricFamily :=
  match metric.EngineMetricsNameMapping engineType with
  | none => none
  | some rawMetricName => allMetrics rawMetricName

/-- The method `fetchMetrics`. With an empty engine type the log call evaluates
`err.Error()`, which panics when `err` is nil. -/
def fetchMetrics (E : Env) (pod : Pod) (allMetrics : String → Option MetricFamily)
    (labelMetricName : String) : Outcome (Option MetricFamily) :=
  match E.Metrics labelMetricName with
  | none => Outcome.returned none
  | some metric =>
    if (E.getPodLabel pod E.engineLabel).1 = "" then
      match (E.getPodLabel pod E.engineLabel).2 with
      | none => Outcome.panicked
      | some _ => Outcome.returned (fetchRaw metric allMetrics defaultEngineLabelValue)
    else
      Outcome.returned (fetchRaw metric allMetrics (E.getPodLabel pod E.engineLabel).1)

/-! ## Extraction pipelines -/

/-- A `for _, x := range xs` loop whose body either finishes the iteration
(normally or by `continue`) or panics. -/
def forRange {σ ι : Type} (body : ι → σ → Outcome σ) : List ι → σ → Outcome σ
  | [], s => Outcome.returned s
  | x :: xs, s =>
    match body x s with
    | Outcome.returned s1 => forRange body xs s1
    | Outcome.panicked => Outcome.panicked

/-- The body of the sample loop of `updateSimpleMetricFromRawMetrics`. -/
def updateSimpleSample (E : Env) (metricName : String) (scope : MetricScope)
    (familyType : DtoMetricType) (pod : Pod) (familyMetric : DtoMetric) : Pod :=
  match E.GetCounterGaugeValue familyMetric familyType with
  | Except.error _ => pod
  | Except.ok metricValue =>
    (updatePodRecord E pod (E.GetLabelValueForKey familyMetric "model_name").1 metricName scope
      (MetricValue.SimpleMetricValue metricValue)).1

/-- The body of the metric loop of `updateSimpleMetricFromRawMetrics`. -/
def updateSimpleMetric (E : Env) (allMetrics : String → Option MetricFamily)
    (metricName : String) (pod : Pod) : Outcome Pod :=
  match E.Metrics metricName with
  | none => Outcome.returned pod
  | some metric =>
    match fetchMetrics E pod allMetrics metricName with
    | Outcome.panicked => Outcome.panicked
    | Outcome.returned none => Outcome.returned pod
    | Outcome.returned (some metricFamily) =>
      Outcome.returned
        (metricFamily.Metric.foldl
          (updateSimpleSample E metricName metric.MetricScope metricFamily.FamilyType) pod)

/-- The method `updateSimpleMetricFromRawMetrics`. -/
def updateSimpleMetricFromRawMetrics (E : Env) (pod : Pod)
    (allMetrics : String → Option MetricFamily) : Outcome Pod :=
  forRange (updateSimpleMetric E allMetrics) (counterGaugeMetricNames E.names) pod

/-- The body of the sample loop of `updateHistogramMetricFromRawMetrics`. -/
def updateHistogramSample (E : Env) (metricName : String) (scope : MetricScope)
    (pod : Pod) (familyMetric : DtoMetric) : Pod :=
  match E.GetHistogramValue familyMetric with
  | Except.error _ => pod
  | Except.ok metricValue =>
    (updatePodRecord E pod (E.GetLabelValueForKey familyMetric "model_name").1 metricName scope
      (MetricValue.HistogramMetricValue metricValue.Sum metricValue.Count metricValue.Buckets)).1

/-- The body of the metric loop of `updateHistogramMetricFromRawMetrics`. -/
def updateHistogramMetric (E : Env) (allMetrics : String → Option MetricFamily)
    (metricName : String) (pod : Pod) : Outcome Pod :=
  match E.Metrics metricName with
  | none => Outcome.returned pod
  | some metric =>
    match fetchMetrics E pod allMetrics metricName with
    | Outcome.panicked => Outcome.panicked
    | Outcome.returned none => Outcome.returned pod
    | Outcome.returned (some metricFamily) =>
      Outcome.returned
        (metricFamily.Metric.foldl (updateHistogramSample E metricName metric.MetricScope) pod)

/-- The method `updateHistogramMetricFromRawMetrics`. -/
def updateHistogramMetricFromRawMetrics (E : Env) (pod : Pod)
    (allMetrics : String → Option MetricFamily) : Outcome Pod :=
  forRange (updateHistogramMetric E allMetrics) (histogramMetricNames E.names) pod

/-- The body of the sample loop of `updateQueryLabelMetricFromRawMetrics`. -/
def updateQueryLabelSample (E : Env) (labelMetricName : String) (scope : MetricScope)
    (pod : Pod) (familyMetric : DtoMetric) : Pod :=
  (updatePodRecord E pod (E.GetLabelValueForKey familyMetric "model_name").1 labelMetricName scope
    (MetricValue.LabelValueMetricValue (E.GetLabelValueForKey familyMetric labelMetricName).1)).1

/-- The body of the metric loop of `updateQueryLabelMetricFromRawMetrics`: the
family is fetched with `metric.RawMetricName` as the identifier. -/
def updateQueryLabelMetric (E : Env) (allMetrics : String → Option MetricFamily)
    (labelMetricName : String) (pod : Pod) : Outcome Pod :=
  match E.Metrics labelMetricName with
  | none => Outcome.returned pod
  | some metric =>
    match fetchMetrics E pod allMetrics metric.RawMetricName with
    | Outcome.panicked => Outcome.panicked
    | Outcome.returned none => Outcome.returned pod
    | Outcome.returned (some metricFamily) =>
      Outcome.returned
        (metricFamily.Metric.foldl
          (updateQueryLabelSample E labelMetricName metric.MetricScope) pod)

/-- The method `updateQueryLabelMetricFromRawMetrics`. -/
def updateQueryLabelMetricFromRawMetrics (E : Env) (pod : Pod)
    (allMetrics : String → Option MetricFamily) : Outcome Pod :=
  forRange (updateQueryLabelMetric E allMetrics) (labelQueryMetricNames E.names) pod

/-! ## Derived queries -/

/-- What `prometheusApi.Query` returns: the result, the warnings, the error. -/
structure QueryReply where
  result : String
  warnings : List String
  err : Option String

/-- One executed call of `prometheusApi.Query`, with the identifier and the
model it was made for. -/
structure QueryCall where
  metricName : String
  modelName : String
  query : String
  deriving DecidableEq

/-- The state the derived-query phase works on: the pod, the time-series
backend, and the queries executed so far (oldest first). -/
structure PromState (B : Type) where
  pod : Pod
  backend : B
  queries : List QueryCall

/-- The two errors `queryUpdatePromQLMetrics` returns. -/
inductive QueryUpdateError where
  | executingQuery (err : String)
  | updateMetrics (err : UpdateError)
  deriving DecidableEq

/-- The method `queryUpdatePromQLMetrics`; `api` is `c.prometheusApi.Query`. -/
def queryUpdatePromQLMetrics {B : Type} (E : Env) (api : B → String → QueryReply × B)
    (metric : Metric) (queryLabels : String → Option String) (modelName : String)
    (metricName : String) (_podMetricPort : Int) (s : PromState B) :
    PromState B × Option QueryUpdateError :=
  let scope := metric.MetricScope
  let query := E.BuildQuery metric.PromQL queryLabels
  let reply := api s.backend query
  let queries := s.queries ++ [{ metricName := metricName, modelName := modelName, query := query }]
  match reply.1.err with
  | some err =>
    ({ pod := s.pod, backend := reply.2, queries := queries },
      some (QueryUpdateError.executingQuery err))
  | none =>
    let written := updatePodRecord E s.pod modelName metricName scope
      (MetricValue.PrometheusMetricValue reply.1.result)
    match written.2 with
    | some err =>
      ({ pod := written.1, backend := reply.2, queries := queries },
        some (QueryUpdateError.updateMetrics err))
    | none => ({ pod := written.1, backend := reply.2, queries := queries }, none)

/-- The body of the model loop of `updateMetricFromPromQL`: the state and the
`queryLabels` map after one model. -/
def updatePromQLModel {B : Type} (E : Env) (api : B → String → QueryReply × B)
    (metric : Metric) (metricName : String) (podMetricPort : Int)
    (acc : PromState B × (String → Option String)) (modelName : String) :
    PromState B × (String → Option String) :=
  let queryLabels : String → Option String :=
    fun k => if k = "model_name" then some modelName else acc.2 k
  ((queryUpdatePromQLMetrics E api metric queryLabels modelName metricName podMetricPort acc.1).1,
    queryLabels)

/-- The body of the metric loop of `updateMetricFromPromQL`. -/
def updatePromQLMetric {B : Type} (E : Env) (api : B → String → QueryReply × B)
    (podMetricPort : Int) (metricName : String) (s : PromState B) : PromState B :=
  let queryLabels : String → Option String :=
    fun k => if k = "instance" then some (s.pod.PodIP ++ ":" ++ toString podMetricPort) else none
  match E.Metrics metricName with
  | none => s
  | some metric =>
    match metric.MetricScope with
    | MetricScope.PodMetricScope =>
      (queryUpdatePromQLMetrics E api metric queryLabels "" metricName podMetricPort s).1
    | MetricScope.PodModelMetricScope =>
      if s.pod.Models.length > 0 then
        (s.pod.Models.foldl (updatePromQLModel E api metric metricName podMetricPort)
          (s, queryLabels)).1
      else s
    | MetricScope.unsupported _ => s

/-- The method `updateMetricFromPromQL`, called by the worker when the
Prometheus client is set. -/
def updateMetricFromPromQL {B : Type} (E : Env) (api : B → String → QueryReply × B)
    (s : PromState B) : PromState B :=
  (prometheusMetricNames E.names).foldl
    (fun acc metricName => updatePromQLMetric E api (E.getPodMetricPort s.pod) metricName acc) s

/-! ## A concrete environment

The examples below run the code on this environment: a catalog with one
definition of each kind, label lookup on the pod, and extractors that read the
sample. -/

/-- Modelled from the spec: `getPodLabel` (cache package, outside the file)
reads a label off the pod: the value and no error when the label is present,
the empty string and an error when it is absent. -/
def lookupPodLabel (pod : Pod) (labelName : String) : String × Option String :=
  match pod.Labels.lookup labelName with
  | some labelTarget => (labelTarget, none)
  | none => ("", some ("no label " ++ labelName ++ " found for pod " ++ pod.Name))

/-- Modelled from the spec: `metrics.GetLabelValueForKey` (outside the file):
the value of the label on the sample, the empty string and an error if the
sample has no such label. -/
def lookupSampleLabel (familyMetric : DtoMetric) (key : String) : String × Option String :=
  match familyMetric.Label.lookup key with
  | some value => (value, none)
  | none => ("", some ("label " ++ key ++ " not found"))

/-- Modelled from the spec: `metrics.GetCounterGaugeValue` (outside the file):
the numeric value of a counter or gauge sample according to the declared type
of the family; any other type is an error. -/
def counterGaugeValue (familyMetric : DtoMetric) (familyType : DtoMetricType) :
    Except String Float :=
  match familyType with
  | DtoMetricType.COUNTER => Except.ok (familyMetric.Counter.getD 0)
  | DtoMetricType.GAUGE => Except.ok (familyMetric.Gauge.getD 0)
  | _ => Except.error "unsupported metric type"

/-- Modelled from the spec: `metrics.GetHistogramValue` (outside the file): sum,
count and buckets of a histogram sample, copied as they are. -/
def histogramValue (familyMetric : DtoMetric) : Except String HistogramData :=
  match familyMetric.Histogram with
  | some h => Except.ok h
  | none => Except.error "metric is not a histogram"

/-- Identifier constants for the examples; `NumRequestsWaiting` is the
identifier of the scalar-extraction scenario. -/
def sampleNames : MetricNames where
  NumRequestsRunning := "num_requests_running"
  NumRequestsWaiting := "queue_waiting"
  NumRequestsSwapped := "num_requests_swapped"
  AvgPromptThroughputToksPerS := "avg_prompt_throughput_toks_per_s"
  AvgGenerationThroughputToksPerS := "avg_generation_throughput_toks_per_s"
  GPUCacheUsagePerc := "gpu_cache_usage_perc"
  CPUCacheUsagePerc := "cpu_cache_usage_perc"
  EngineUtilization := "engine_utilization"
  IterationTokensTotal := "iteration_tokens_total"
  TimeToFirstTokenSeconds := "time_to_first_token_seconds"
  TimePerOutputTokenSeconds := "time_per_output_token_seconds"
  E2ERequestLatencySeconds := "e2e_request_latency_seconds"
  RequestQueueTimeSeconds := "request_queue_time_seconds"
  RequestInferenceTimeSeconds := "request_inference_time_seconds"
  RequestDecodeTimeSeconds := "request_decode_time_seconds"
  RequestPrefillTimeSeconds := "request_prefill_time_seconds"
  P95TTFT5m := "p95_ttft_5m"
  P95TTFT5mPod := "p95_ttft_5m_pod"
  AvgTTFT5mPod := "avg_ttft_5m_pod"
  P95TPOT5mPod := "p95_tpot_5m_pod"
  AvgTPOT5mPod := "avg_tpot_5m_pod"
  AvgPromptToksPerReq := "avg_prompt_toks_per_req"
  AvgGenerationToksPerReq := "avg_generation_toks_per_req"
  AvgE2ELatencyPod := "avg_e2e_latency_pod"
  AvgRequestsPerMinPod := "avg_requests_per_min_pod"
  AvgPromptThroughputToksPerMinPod := "avg_prompt_throughput_toks_per_min_pod"
  AvgGenerationThroughputToksPerMinPod := "avg_generation_throughput_toks_per_min_pod"
  MaxLora := "max_lora"
  WaitingLoraAdapters := "waiting_lora_adapters"
  RunningLoraAdapters := "running_lora_adapters"

/-- A per-engine mapping with an entry for `vllm` only. -/
def vllmOnly (rawName : String) : String → Option String :=
  fun engine => if engine = "vllm" then some rawName else none

/-- A catalog with a pod-model scalar (`queue_waiting`), a pod-scoped scalar, a
pod-scoped histogram, a label-valued metric whose raw name is no identifier of
the catalog, and a pod-model derived metric. -/
def sampleCatalog : String → Option Metric :=
  fun name =>
    if name = "queue_waiting" then
      some { MetricScope := MetricScope.PodModelMetricScope
             RawMetricName := "num_requests_waiting"
             PromQL := ""
             EngineMetricsNameMapping := vllmOnly "vllm:num_requests_waiting" }
    else if name = "num_requests_running" then
      some { MetricScope := MetricScope.PodMetricScope
             RawMetricName := "num_requests_running"
             PromQL := ""
             EngineMetricsNameMapping := vllmOnly "vllm:num_requests_running" }
    else if name = "time_to_first_token_seconds" then
      some { MetricScope := MetricScope.PodMetricScope
             RawMetricName := "time_to_first_token_seconds"
             PromQL := ""
             EngineMetricsNameMapping := vllmOnly "vllm:time_to_first_token_seconds" }
    else if name = "max_lora" then
      some { MetricScope := MetricScope.PodMetricScope
             RawMetricName := "lora_requests_info"
             PromQL := ""
             EngineMetricsNameMapping := vllmOnly "vllm:lora_requests_info" }
    else if name = "p95_ttft_5m" then
      some { MetricScope := MetricScope.PodModelMetricScope
             RawMetricName := ""
             PromQL := "histogram_quantile(0.95, ttft)"
             EngineMetricsNameMapping := fun _ => none }
    else none

/-- The environment of the examples. -/
def sampleEnv : Env where
  Metrics := sampleCatalog
  names := sampleNames
  engineLabel := "model.aibrix.ai/engine"
  modelLabel := "model.aibrix.ai/name"
  getPodLabel := lookupPodLabel
  getPodMetricPort := fun _ => 8000
  GetLabelValueForKey := lookupSampleLabel
  GetCounterGaugeValue := counterGaugeValue
  GetHistogramValue := histogramValue
  BuildQuery := fun promQL _ => promQL

/-- A pod with the given labels, no served model and an empty cache. -/
def samplePod (labels : List (String × String)) : Pod where
  Name := "pod-a"
  PodIP := "10.0.0.1"
  Labels := labels
  Models := []
  Metrics := SyncMap.empty
  ModelMetrics := SyncMap.empty

/-- A pod whose engine label is present with the given value. -/
def enginePod (engine : String) : Pod :=
  samplePod [("model.aibrix.ai/engine", engine)]

/-- A decoded payload with the gauge family `vllm:num_requests_waiting` holding
one sample, labelled `model_name = m1`, of value 3.0. -/
def waitingFamilies : String → Option MetricFamily :=
  fun rawName =>
    if rawName = "vllm:num_requests_waiting" then
      some { Name := "vllm:num_requests_waiting"
             FamilyType := DtoMetricType.GAUGE
             Metric := [{ Label := [("model_name", "m1")]
                          Gauge := some 3.0
                          Counter := none
                          Histogram := none }] }
    else none

/-- A decoded payload with the family `vllm:lora_requests_info` holding one
sample that carries the label `max_lora = 4`. -/
def loraFamilies : String → Option MetricFamily :=
  fun rawName =>
    if rawName = "vllm:lora_requests_info" then
      some { Name := "vllm:lora_requests_info"
             FamilyType := DtoMetricType.GAUGE
             Metric := [{ Label := [("max_lora", "4")]
                          Gauge := some 1.0
                          Counter := none
                          Histogram := none }] }
    else none

/-! ## Notions used in the statements -/

/-- The engine type with which `fetchMetrics` reads the mapping of a
definition, when it gets that far: the value of the engine label if it is not
empty, `defaultEngineLabelValue` if the lookup gave the empty string together
with an error, and nothing if it gave the empty string without an error (the
log call then panics). -/
def resolvedEngine (E : Env) (pod : Pod) : Option String :=
  if (E.getPodLabel pod E.engineLabel).1 = "" then
    match (E.getPodLabel pod E.engineLabel).2 with
    | none => none
    | some _ => some defaultEngineLabelValue
  else some (E.getPodLabel pod E.engineLabel).1

/-- The label lookup does not read the two metric maps of the pod. -/
def LabelsStable (E : Env) : Prop :=
  ∀ (pod : Pod) (M MM : SyncMap MetricValue) (labelName : String),
    E.getPodLabel { pod with Metrics := M, ModelMetrics := MM } labelName
      = E.getPodLabel pod labelName

/-- The identifier has no `/` in it. -/
def NoSlash (name : String) : Prop := '/' ∉ name.data

instance (name : String) : Decidable (NoSlash name) :=
  inferInstanceAs (Decidable ('/' ∉ name.data))

/-- One call of `updatePodRecord`: its arguments after the pod. -/
structure PodWrite where
  modelName : String
  metricName : String
  scope : MetricScope
  value : MetricValue

/-- The pod after the given calls of `updatePodRecord`, made in list order, the
error of each call being discarded. -/
def applyWrites (E : Env) (pod : Pod) (writes : List PodWrite) : Pod :=
  writes.foldl
    (fun p w => (updatePodRecord E p w.modelName w.metricName w.scope w.value).1) pod

/-- The writes of one scalar family, in sample order: one for each sample whose
value extraction succeeds. -/
def simpleFamilyWrites (E : Env) (metricName : String) (scope : MetricScope)
    (metricFamily : MetricFamily) : List PodWrite :=
  metricFamily.Metric.filterMap fun familyMetric =>
    match E.GetCounterGaugeValue familyMetric metricFamily.FamilyType with
    | Except.error _ => none
    | Except.ok metricValue =>
      some { modelName := (E.GetLabelValueForKey familyMetric "model_name").1
             metricName := metricName
             scope := scope
             value := MetricValue.SimpleMetricValue metricValue }

/-- The writes of the scalar pipeline for a pod whose engine type resolves to
`engine`: in list order over the identifiers, those of the family of each
identifier that the catalog defines, maps for the engine, and the payload
holds. -/
def simpleWrites (E : Env) (engine : String) (allMetrics : String → Option MetricFamily)
    (names : List String) : List PodWrite :=
  names.flatMap fun metricName =>
    match E.Metrics metricName with
    | none => []
    | some metric =>
      match fetchRaw metric allMetrics engine with
      | none => []
      | some metricFamily => simpleFamilyWrites E metricName metric.MetricScope metricFamily

/-- The pod `q` is the pod `p` up to the contents of the two metric maps. -/
def SameIdentity (p q : Pod) : Prop :=
  q.Name = p.Name ∧ q.PodIP = p.PodIP ∧ q.Labels = p.Labels ∧ q.Models = p.Models

/-- From `p` to `q` nothing was written but entries of the identifier `name`:
the key `name` of the pod-scoped map and keys `m + "/" + name` of the pod-model
map. -/
def WritesOnly (name : String) (p q : Pod) : Prop :=
  SameIdentity p q ∧
  (∀ k : String, k ≠ name → q.Metrics.Load k = p.Metrics.Load k) ∧
  (∀ k : String, (∀ m : String, k ≠ m ++ "/" ++ name) →
    q.ModelMetrics.Load k = p.ModelMetrics.Load k)

/-- From `p` to `q` no entry of the identifier `name` was written. -/
def Untouched (name : String) (p q : Pod) : Prop :=
  q.Metrics.Load name = p.Metrics.Load name ∧
  ∀ m : String, q.ModelMetrics.Load (m ++ "/" ++ name) = p.ModelMetrics.Load (m ++ "/" ++ name)

/-- The common shape of the bodies of the three metric loops: look the
identifier up in the catalog, fetch the family with `fetchName`, run `sample`
over the samples of the family. -/
def metricBody (E : Env) (allMetrics : String → Option MetricFamily)
    (fetchName : String → Metric → String)
    (sample : String → Metric → MetricFamily → Pod → DtoMetric → Pod)
    (metricName : String) (pod : Pod) : Outcome Pod :=
  match E.Metrics metricName with
  | none => Outcome.returned pod
  | some metric =>
    match fetchMetrics E pod allMetrics (fetchName metricName metric) with
    | Outcome.panicked => Outcome.panicked
    | Outcome.returned none => Outcome.returned pod
    | Outcome.returned (some metricFamily) =>
      Outcome.returned (metricFamily.Metric.foldl (sample metricName metric metricFamily) pod)

/-- A time-series backend for the examples: it answers every query with the
same result and counts the queries it has served. -/
def sampleApi : Nat → String → QueryReply × Nat :=
  fun served _ => ({ result := "0.25", warnings := [], err := none }, served + 1)

/-- The state before the derived-query phase of a pod that serves no model. -/
def sampleStart : PromState Nat where
  pod := samplePod []
  backend := 0
  queries := []

/-- A catalog whose only definition is `queue_waiting`, pod-model-scoped, with
an empty per-engine mapping: no engine has a raw name for it. -/
def unmappedCatalog : String → Option Metric :=
  fun name =>
    if name = "queue_waiting" then
      some { MetricScope := MetricScope.PodModelMetricScope
             RawMetricName := "num_requests_waiting"
             PromQL := ""
             EngineMetricsNameMapping := fun _ => none }
    else none

/-- The environment of the examples with `unmappedCatalog` as its catalog. -/
def unmappedEnv : Env :=
  { sampleEnv with Metrics := unmappedCatalog }

/-- A catalog whose only definition is `queue_waiting`, pod-model-scoped, mapped
to `vllm:num_requests_waiting` for every engine. -/
def mappedCatalog : String → Option Metric :=
  fun name =>
    if name = "queue_waiting" then
      some { MetricScope := MetricScope.PodModelMetricScope
             RawMetricName := "num_requests_waiting"
             PromQL := ""
             EngineMetricsNameMapping := fun _ => some "vllm:num_requests_waiting" }
    else none

/-- The environment of the examples with `mappedCatalog` as its catalog. -/
def mappedEnv : Env :=
  { sampleEnv with Metrics := mappedCatalog }

/-! ## Write and read paths: theorems -/

/-- C1: a pod-model-scoped write with a non-empty model name `m` returns no
error, stores the value under the key `m + "/" + n` (the result of
`getPodModelMetricName`), and leaves the pod-scoped map and every other key of
the pod-model map as they were. -/
theorem updatePodRecord_podModel_key (E : Env) (pod : Pod) (m n : String) (v : MetricValue)
    (hm : m ≠ "") :
    (updatePodRecord E pod m n MetricScope.PodModelMetricScope v).2 = none ∧
    getPodModelMetricName m n = m ++ "/" ++ n ∧
    (updatePodRecord E pod m n MetricScope.PodModelMetricScope v).1.ModelMetrics.Load
      (m ++ "/" ++ n) = some v ∧
    (updatePodRecord E pod m n MetricScope.PodModelMetricScope v).1.Metrics = pod.Metrics ∧
    ∀ k : String, k ≠ m ++ "/" ++ n →
      (updatePodRecord E pod m n MetricScope.PodModelMetricScope v).1.ModelMetrics.Load k
        = pod.ModelMetrics.Load k := by
  simp [updatePodRecord, hm, getPodModelMetricName, SyncMap.Load, SyncMap.Store]
  intro k hk
  simp [hk]

/-- Witness of C1: model `m1`, identifier `queue_waiting`, value 3.0. -/
theorem updatePodRecord_podModel_key_witness :
    (updatePodRecord sampleEnv (samplePod []) "m1" "queue_waiting"
        MetricScope.PodModelMetricScope (MetricValue.SimpleMetricValue 3.0)).2 = none ∧
    getPodModelMetricName "m1" "queue_waiting" = "m1" ++ "/" ++ "queue_waiting" ∧
    (updatePodRecord sampleEnv (samplePod []) "m1" "queue_waiting"
        MetricScope.PodModelMetricScope (MetricValue.SimpleMetricValue 3.0)).1.ModelMetrics.Load
      ("m1" ++ "/" ++ "queue_waiting") = some (MetricValue.SimpleMetricValue 3.0) ∧
    (updatePodRecord sampleEnv (samplePod []) "m1" "queue_waiting"
        MetricScope.PodModelMetricScope (MetricValue.SimpleMetricValue 3.0)).1.Metrics
      = (samplePod []).Metrics ∧
    ∀ k : String, k ≠ "m1" ++ "/" ++ "queue_waiting" →
      (updatePodRecord sampleEnv (samplePod []) "m1" "queue_waiting"
        MetricScope.PodModelMetricScope (MetricValue.SimpleMetricValue 3.0)).1.ModelMetrics.Load k
        = (samplePod []).ModelMetrics.Load k :=
  updatePodRecord_podModel_key sampleEnv (samplePod []) "m1" "queue_waiting"
    (MetricValue.SimpleMetricValue 3.0) (by decide)

/-- C2: `getPodMetricImpl` returns the stored value and a nil error when the
store has the key; otherwise it returns a nil value and a
`MetricNotFoundError` with `ErrorTypeMetricNotFound`, the pod name and the
key; on a store never written every lookup is of the second kind. -/
theorem getPodMetricImpl_found_or_notFound (p : String) (s : SyncMap MetricValue) (k : String) :
    (∀ v : MetricValue, s.Load k = some v → getPodMetricImpl p s k = (some v, none)) ∧
    (s.Load k = none →
      getPodMetricImpl p s k =
        (none, some { CacheError := CacheError.ErrorTypeMetricNotFound
                      PodName := p
                      MetricName := k })) ∧
    getPodMetricImpl p SyncMap.empty k =
      (none, some { CacheError := CacheError.ErrorTypeMetricNotFound
                    PodName := p
                    MetricName := k }) := by
  refine ⟨?_, ?_, ?_⟩
  · intro v hv
    simp [getPodMetricImpl, hv]
  · intro hv
    simp [getPodMetricImpl, hv]
  · simp [getPodMetricImpl, SyncMap.Load, SyncMap.empty]

/-- C3: two writes of the same `(m, n, scope)`, pod-scoped or pod-model-scoped
with a non-empty model name, leave the second value readable under the key of
the scope, and leave the pod exactly as the second write alone does. -/
theorem updatePodRecord_last_write_wins (E : Env) (pod : Pod) (m n : String)
    (scope : MetricScope) (v1 v2 : MetricValue)
    (hs : scope = MetricScope.PodMetricScope ∨
      (scope = MetricScope.PodModelMetricScope ∧ m ≠ "")) :
    (scope = MetricScope.PodMetricScope →
      getPodMetricImpl pod.Name
        (updatePodRecord E (updatePodRecord E pod m n scope v1).1 m n scope v2).1.Metrics n
        = (some v2, none)) ∧
    (scope = MetricScope.PodModelMetricScope →
      getPodMetricImpl pod.Name
        (updatePodRecord E (updatePodRecord E pod m n scope v1).1 m n scope v2).1.ModelMetrics
        (m ++ "/" ++ n) = (some v2, none)) ∧
    (updatePodRecord E (updatePodRecord E pod m n scope v1).1 m n scope v2).1.Metrics
      = (updatePodRecord E pod m n scope v2).1.Metrics ∧
    (updatePodRecord E (updatePodRecord E pod m n scope v1).1 m n scope v2).1.ModelMetrics
      = (updatePodRecord E pod m n scope v2).1.ModelMetrics := by
  rcases hs with hs | ⟨hs, hm⟩
  · subst hs
    refine ⟨?_, ?_, ?_, ?_⟩
    · intro _
      simp [updatePodRecord, getPodMetricImpl, SyncMap.Load, SyncMap.Store]
    · intro h
      cases h
    · funext k
      simp only [updatePodRecord, SyncMap.Store]
      split <;> rfl
    · rfl
  · subst hs
    refine ⟨?_, ?_, ?_, ?_⟩
    · intro h
      cases h
    · intro _
      simp [updatePodRecord, hm, getPodMetricImpl, getPodModelMetricName, SyncMap.Load,
        SyncMap.Store]
    · simp [updatePodRecord, hm]
    · funext k
      simp only [updatePodRecord, hm, if_false, SyncMap.Store]
      split <;> rfl

/-- Witness of C3: a pod-model-scoped pair of writes for model `m1`. -/
theorem updatePodRecord_last_write_wins_witness :
    getPodMetricImpl "pod-a"
      (updatePodRecord sampleEnv
        (updatePodRecord sampleEnv (samplePod []) "m1" "queue_waiting"
          MetricScope.PodModelMetricScope (MetricValue.SimpleMetricValue 1.0)).1
        "m1" "queue_waiting" MetricScope.PodModelMetricScope
        (MetricValue.SimpleMetricValue 3.0)).1.ModelMetrics
      ("m1" ++ "/" ++ "queue_waiting") = (some (MetricValue.SimpleMetricValue 3.0), none) :=
  (updatePodRecord_last_write_wins sampleEnv (samplePod []) "m1" "queue_waiting"
    MetricScope.PodModelMetricScope (MetricValue.SimpleMetricValue 1.0)
    (MetricValue.SimpleMetricValue 3.0) (Or.inr ⟨rfl, by decide⟩)).2.1 rfl

/-- C4: a pod-model-scoped write with an empty model name on a pod whose model
label lookup returns an error returns the "model name should not be empty"
error and leaves both maps of the pod unchanged. -/
theorem updatePodRecord_ambiguous_model (E : Env) (pod : Pod) (n : String) (v : MetricValue)
    (hlabel : (E.getPodLabel pod E.modelLabel).2 ≠ none) :
    (updatePodRecord E pod "" n MetricScope.PodModelMetricScope v).2
      = some (UpdateError.modelNameEmpty MetricScope.PodModelMetricScope) ∧
    (updatePodRecord E pod "" n MetricScope.PodModelMetricScope v).1.Metrics = pod.Metrics ∧
    (updatePodRecord E pod "" n MetricScope.PodModelMetricScope v).1.ModelMetrics
      = pod.ModelMetrics := by
  cases herr : (E.getPodLabel pod E.modelLabel).2 with
  | none => exact absurd herr hlabel
  | some e => simp [updatePodRecord, herr]

/-- Witness of C4: a pod without any label. -/
theorem updatePodRecord_ambiguous_model_witness :
    (updatePodRecord sampleEnv (samplePod []) "" "queue_waiting"
        MetricScope.PodModelMetricScope (MetricValue.SimpleMetricValue 3.0)).2
      = some (UpdateError.modelNameEmpty MetricScope.PodModelMetricScope) ∧
    (updatePodRecord sampleEnv (samplePod []) "" "queue_waiting"
        MetricScope.PodModelMetricScope (MetricValue.SimpleMetricValue 3.0)).1.Metrics
      = (samplePod []).Metrics ∧
    (updatePodRecord sampleEnv (samplePod []) "" "queue_waiting"
        MetricScope.PodModelMetricScope (MetricValue.SimpleMetricValue 3.0)).1.ModelMetrics
      = (samplePod []).ModelMetrics :=
  updatePodRecord_ambiguous_model sampleEnv (samplePod []) "queue_waiting"
    (MetricValue.SimpleMetricValue 3.0) (by simp [sampleEnv, lookupPodLabel, samplePod])

/-! ## Resolution of a family: theorems -/

/-- The method `fetchMetrics` in terms of the engine type it resolves. -/
theorem fetchMetrics_eq (E : Env) (pod : Pod) (allMetrics : String → Option MetricFamily)
    (name : String) :
    fetchMetrics E pod allMetrics name =
      match E.Metrics name with
      | none => Outcome.returned none
      | some metric =>
        match resolvedEngine E pod with
        | none => Outcome.panicked
        | some engine => Outcome.returned (fetchRaw metric allMetrics engine) := by
  unfold fetchMetrics resolvedEngine
  cases E.Metrics name with
  | none => rfl
  | some metric =>
    by_cases h : (E.getPodLabel pod E.engineLabel).1 = ""
    · cases herr : (E.getPodLabel pod E.engineLabel).2 <;> simp [h, herr]
    · simp [h]

/-- Engine-mapping fallback, where the code has it: when the engine label
lookup gives the empty string together with an error, `fetchMetrics` returns
the family under the raw name that the definition maps for `vllm`, and
`(nil, false)` when that mapping or that family is missing. -/
theorem fetchMetrics_default_engine (E : Env) (pod : Pod)
    (allMetrics : String → Option MetricFamily) (name : String) (metric : Metric)
    (hdef : E.Metrics name = some metric)
    (hempty : (E.getPodLabel pod E.engineLabel).1 = "")
    (herr : (E.getPodLabel pod E.engineLabel).2 ≠ none) :
    fetchMetrics E pod allMetrics name
      = Outcome.returned
          (match metric.EngineMetricsNameMapping "vllm" with
           | none => none
           | some rawMetricName => allMetrics rawMetricName) := by
  cases h : (E.getPodLabel pod E.engineLabel).2 with
  | none => exact absurd h herr
  | some e => simp [fetchMetrics, hdef, hempty, h, fetchRaw, defaultEngineLabelValue]

/-- The fallback on a pod without any label: the lookup fails with an error,
and the family mapped for `vllm` is returned. -/
theorem fetchMetrics_default_engine_example :
    ∃ fam, waitingFamilies "vllm:num_requests_waiting" = some fam ∧
      fetchMetrics sampleEnv (samplePod []) waitingFamilies "queue_waiting"
        = Outcome.returned (some fam) :=
  ⟨_, rfl, fetchMetrics_default_engine sampleEnv (samplePod []) waitingFamilies "queue_waiting"
    _ rfl rfl (by simp [sampleEnv, lookupPodLabel, samplePod])⟩

/-- When the engine label lookup gives the empty string and no error,
`fetchMetrics` panics on every identifier the catalog defines. -/
theorem fetchMetrics_panicked_of_empty_engine (E : Env) (pod : Pod)
    (allMetrics : String → Option MetricFamily) (name : String) (metric : Metric)
    (hdef : E.Metrics name = some metric)
    (hlabel : E.getPodLabel pod E.engineLabel = ("", none)) :
    fetchMetrics E pod allMetrics name = Outcome.panicked := by
  simp [fetchMetrics, hdef, hlabel]

/-- C5 (the code departs from the claim): on a pod whose engine label is
present with the empty string as its value, so that the lookup returns the
empty string and a nil error, `fetchMetrics` does not fall back to the mapping
for `vllm`: it panics, although the catalog defines the identifier, maps it for
`vllm`, and the payload holds the mapped family. -/
theorem fetchMetrics_empty_engine_label_panics :
    sampleEnv.getPodLabel (enginePod "") sampleEnv.engineLabel = ("", none) ∧
    (∃ metric family,
      sampleEnv.Metrics "queue_waiting" = some metric ∧
      metric.EngineMetricsNameMapping "vllm" = some "vllm:num_requests_waiting" ∧
      waitingFamilies "vllm:num_requests_waiting" = some family) ∧
    fetchMetrics sampleEnv (enginePod "") waitingFamilies "queue_waiting" = Outcome.panicked := by
  refine ⟨rfl, ⟨_, _, rfl, rfl, rfl⟩, ?_⟩
  exact fetchMetrics_panicked_of_empty_engine sampleEnv (enginePod "") waitingFamilies
    "queue_waiting" _ rfl rfl

/-! ## Frame lemmas -/

theorem sameIdentity_refl (p : Pod) : SameIdentity p p :=
  ⟨rfl, rfl, rfl, rfl⟩

theorem sameIdentity_trans {p q r : Pod} (h1 : SameIdentity p q) (h2 : SameIdentity q r) :
    SameIdentity p r :=
  ⟨h2.1.trans h1.1, h2.2.1.trans h1.2.1, h2.2.2.1.trans h1.2.2.1, h2.2.2.2.trans h1.2.2.2⟩

theorem getPodLabel_of_sameIdentity {E : Env} (hst : LabelsStable E) {p q : Pod}
    (h : SameIdentity p q) (labelName : String) :
    E.getPodLabel q labelName = E.getPodLabel p labelName := by
  obtain ⟨h1, h2, h3, h4⟩ := h
  have hq : q = { p with Metrics := q.Metrics, ModelMetrics := q.ModelMetrics } := by
    cases q
    simp only at h1 h2 h3 h4
    simp only [h1, h2, h3, h4]
  rw [hq]
  exact hst p _ _ labelName

theorem resolvedEngine_of_sameIdentity {E : Env} (hst : LabelsStable E) {p q : Pod}
    (h : SameIdentity p q) : resolvedEngine E q = resolvedEngine E p := by
  unfold resolvedEngine
  rw [getPodLabel_of_sameIdentity hst h]

theorem writesOnly_refl (name : String) (p : Pod) : WritesOnly name p p :=
  ⟨sameIdentity_refl p, fun _ _ => rfl, fun _ _ => rfl⟩

theorem writesOnly_trans {name : String} {p q r : Pod} (h1 : WritesOnly name p q)
    (h2 : WritesOnly name q r) : WritesOnly name p r :=
  ⟨sameIdentity_trans h1.1 h2.1, fun k hk => (h2.2.1 k hk).trans (h1.2.1 k hk),
    fun k hk => (h2.2.2 k hk).trans (h1.2.2 k hk)⟩

theorem updatePodRecord_writesOnly (E : Env) (pod : Pod) (m n : String) (scope : MetricScope)
    (v : MetricValue) : WritesOnly n pod (updatePodRecord E pod m n scope v).1 := by
  cases scope with
  | PodMetricScope =>
    refine ⟨⟨rfl, rfl, rfl, rfl⟩, ?_, fun _ _ => rfl⟩
    intro k hk
    simp [updatePodRecord, SyncMap.Load, SyncMap.Store, hk]
  | PodModelMetricScope =>
    by_cases hm : m = ""
    · cases herr : (E.getPodLabel pod E.modelLabel).2 with
      | some e =>
        simp only [updatePodRecord, hm, herr, if_true]
        exact writesOnly_refl n pod
      | none =>
        simp only [updatePodRecord, hm, herr, if_true]
        refine ⟨⟨rfl, rfl, rfl, rfl⟩, fun _ _ => rfl, ?_⟩
        intro k hk
        simp [SyncMap.Load, SyncMap.Store, getPodModelMetricName, hk]
    · simp only [updatePodRecord, hm, if_false]
      refine ⟨⟨rfl, rfl, rfl, rfl⟩, fun _ _ => rfl, ?_⟩
      intro k hk
      simp [SyncMap.Load, SyncMap.Store, getPodModelMetricName, hk]
  | unsupported name => exact writesOnly_refl n pod

theorem foldl_writesOnly {α : Type} (name : String) (step : Pod → α → Pod)
    (hstep : ∀ p a, WritesOnly name p (step p a)) (l : List α) (p : Pod) :
    WritesOnly name p (l.foldl step p) := by
  induction l generalizing p with
  | nil => exact writesOnly_refl name p
  | cons a l ih => exact writesOnly_trans (hstep p a) (ih (step p a))

theorem updateSimpleSample_writesOnly (E : Env) (n : String) (scope : MetricScope)
    (t : DtoMetricType) (p : Pod) (a : DtoMetric) :
    WritesOnly n p (updateSimpleSample E n scope t p a) := by
  unfold updateSimpleSample
  cases E.GetCounterGaugeValue a t with
  | error e => exact writesOnly_refl n p
  | ok x => exact updatePodRecord_writesOnly E p _ n scope _

theorem updateHistogramSample_writesOnly (E : Env) (n : String) (scope : MetricScope)
    (p : Pod) (a : DtoMetric) :
    WritesOnly n p (updateHistogramSample E n scope p a) := by
  unfold updateHistogramSample
  cases E.GetHistogramValue a with
  | error e => exact writesOnly_refl n p
  | ok x => exact updatePodRecord_writesOnly E p _ n scope _

theorem updateQueryLabelSample_writesOnly (E : Env) (n : String) (scope : MetricScope)
    (p : Pod) (a : DtoMetric) :
    WritesOnly n p (updateQueryLabelSample E n scope p a) :=
  updatePodRecord_writesOnly E p _ n scope _

/-! ## The key scheme -/

theorem list_split_unique {α : Type} (c : α) :
    ∀ (a a1 b b1 : List α), c ∉ b → c ∉ b1 → a ++ c :: b = a1 ++ c :: b1 → b = b1
  | [], [], b, b1, _, _, h => by simpa using h
  | [], d :: a1, b, b1, hb, _, h => by
    simp only [List.nil_append, List.cons_append, List.cons.injEq] at h
    exact absurd (h.2 ▸ List.mem_append_right a1 (List.mem_cons_self c b1)) hb
  | d :: a, [], b, b1, _, hb1, h => by
    simp only [List.nil_append, List.cons_append, List.cons.injEq] at h
    exact absurd (h.2 ▸ List.mem_append_right a (List.mem_cons_self c b)) hb1
  | d :: a, d1 :: a1, b, b1, hb, hb1, h => by
    simp only [List.cons_append, List.cons.injEq] at h
    exact list_split_unique c a a1 b b1 hb hb1 h.2

/-- Two identifiers without `/` that give the same pod-model key are equal. -/
theorem key_identifier_unique {m m1 n n1 : String} (hn : NoSlash n) (hn1 : NoSlash n1)
    (h : m ++ "/" ++ n = m1 ++ "/" ++ n1) : n = n1 := by
  have hd : (m ++ "/" ++ n).data = (m1 ++ "/" ++ n1).data := by rw [h]
  simp only [String.data_append] at hd
  simp only [List.append_assoc, List.singleton_append] at hd
  exact String.ext (list_split_unique '/' _ _ _ _ hn hn1 hd)

theorem untouched_of_writesOnly {n n1 : String} {p q : Pod} (hn : NoSlash n)
    (hn1 : NoSlash n1) (hne : n1 ≠ n) (h : WritesOnly n1 p q) : Untouched n p q := by
  refine ⟨h.2.1 n (Ne.symm hne), ?_⟩
  intro m
  apply h.2.2
  intro m1 hk
  exact hne (key_identifier_unique hn hn1 hk).symm

theorem untouched_refl (n : String) (p : Pod) : Untouched n p p :=
  ⟨rfl, fun _ => rfl⟩

theorem untouched_trans {n : String} {p q r : Pod} (h1 : Untouched n p q)
    (h2 : Untouched n q r) : Untouched n p r :=
  ⟨h2.1.trans h1.1, fun m => (h2.2 m).trans (h1.2 m)⟩

/-! ## The metric loops -/

theorem updateSimpleMetric_eq_metricBody (E : Env) (allMetrics : String → Option MetricFamily) :
    updateSimpleMetric E allMetrics
      = metricBody E allMetrics (fun n _ => n)
          (fun n metric fam => updateSimpleSample E n metric.MetricScope fam.FamilyType) := by
  funext n p
  rfl

theorem updateHistogramMetric_eq_metricBody (E : Env)
    (allMetrics : String → Option MetricFamily) :
    updateHistogramMetric E allMetrics
      = metricBody E allMetrics (fun n _ => n)
          (fun n metric _ => updateHistogramSample E n metric.MetricScope) := by
  funext n p
  rfl

theorem updateQueryLabelMetric_eq_metricBody (E : Env)
    (allMetrics : String → Option MetricFamily) :
    updateQueryLabelMetric E allMetrics
      = metricBody E allMetrics (fun _ metric => metric.RawMetricName)
          (fun n metric _ => updateQueryLabelSample E n metric.MetricScope) := by
  funext n p
  rfl

/-- The body of a metric loop on a pod whose engine type resolves. -/
theorem metricBody_eq (E : Env) (allMetrics : String → Option MetricFamily)
    (fetchName : String → Metric → String)
    (sample : String → Metric → MetricFamily → Pod → DtoMetric → Pod)
    (n : String) (p : Pod) (e : String) (he : resolvedEngine E p = some e) :
    metricBody E allMetrics fetchName sample n p =
      Outcome.returned
        (match E.Metrics n with
         | none => p
         | some metric =>
           match E.Metrics (fetchName n metric) with
           | none => p
           | some metric1 =>
             match fetchRaw metric1 allMetrics e with
             | none => p
             | some fam => fam.Metric.foldl (sample n metric fam) p) := by
  unfold metricBody
  cases hdef : E.Metrics n with
  | none => rfl
  | some metric =>
    simp only [fetchMetrics_eq, he]
    cases hdef1 : E.Metrics (fetchName n metric) with
    | none => rfl
    | some metric1 =>
      simp only
      cases fetchRaw metric1 allMetrics e <;> rfl

theorem metricBody_writesOnly (E : Env) (allMetrics : String → Option MetricFamily)
    (fetchName : String → Metric → String)
    (sample : String → Metric → MetricFamily → Pod → DtoMetric → Pod)
    (hsample : ∀ n metric fam p a, WritesOnly n p (sample n metric fam p a))
    (n : String) (p : Pod) (e : String) (he : resolvedEngine E p = some e) :
    ∃ q, metricBody E allMetrics fetchName sample n p = Outcome.returned q ∧
      WritesOnly n p q := by
  refine ⟨_, metricBody_eq E allMetrics fetchName sample n p e he, ?_⟩
  cases E.Metrics n with
  | none => exact writesOnly_refl n p
  | some metric =>
    simp only
    cases E.Metrics (fetchName n metric) with
    | none => exact writesOnly_refl n p
    | some metric1 =>
      simp only
      cases fetchRaw metric1 allMetrics e with
      | none => exact writesOnly_refl n p
      | some fam => exact foldl_writesOnly n _ (hsample n metric fam) _ p

theorem metricBody_skip (E : Env) (allMetrics : String → Option MetricFamily)
    (sample : String → Metric → MetricFamily → Pod → DtoMetric → Pod)
    (n : String) (p : Pod) (e : String) (he : resolvedEngine E p = some e)
    (metric : Metric) (hdef : E.Metrics n = some metric)
    (hmap : metric.EngineMetricsNameMapping e = none) :
    metricBody E allMetrics (fun n _ => n) sample n p = Outcome.returned p := by
  rw [metricBody_eq E allMetrics _ sample n p e he]
  simp [hdef, fetchRaw, hmap]

/-- A metric loop that fetches each family under the identifier itself writes no
entry of an identifier that has no mapping for the resolved engine type. -/
theorem forRange_metricBody_untouched (E : Env) (hst : LabelsStable E)
    (allMetrics : String → Option MetricFamily)
    (sample : String → Metric → MetricFamily → Pod → DtoMetric → Pod)
    (hsample : ∀ n metric fam p a, WritesOnly n p (sample n metric fam p a))
    (e n : String) (metric : Metric) (hn : NoSlash n) (hdef : E.Metrics n = some metric)
    (hmap : metric.EngineMetricsNameMapping e = none) :
    ∀ (names : List String), (∀ x ∈ names, NoSlash x) →
      ∀ p : Pod, resolvedEngine E p = some e →
        ∃ q, forRange (metricBody E allMetrics (fun n _ => n) sample) names p
            = Outcome.returned q ∧ SameIdentity p q ∧ Untouched n p q
  | [], _, p, _ => ⟨p, rfl, sameIdentity_refl p, untouched_refl n p⟩
  | x :: rest, hslash, p, he => by
    have hrest : ∀ y ∈ rest, NoSlash y := fun y hy => hslash y (List.mem_cons_of_mem x hy)
    by_cases hx : x = n
    · subst hx
      obtain ⟨q, hq, hid, hun⟩ :=
        forRange_metricBody_untouched E hst allMetrics sample hsample e x metric hn hdef hmap
          rest hrest p he
      refine ⟨q, ?_, hid, hun⟩
      simp only [forRange, metricBody_skip E allMetrics sample x p e he metric hdef hmap]
      exact hq
    · obtain ⟨p1, hp1, hw⟩ :=
        metricBody_writesOnly E allMetrics (fun n _ => n) sample hsample x p e he
      have he1 : resolvedEngine E p1 = some e := by
        rw [resolvedEngine_of_sameIdentity hst hw.1]
        exact he
      obtain ⟨q, hq, hid, hun⟩ :=
        forRange_metricBody_untouched E hst allMetrics sample hsample e n metric hn hdef hmap
          rest hrest p1 he1
      refine ⟨q, ?_, sameIdentity_trans hw.1 hid, ?_⟩
      · simp only [forRange, hp1]
        exact hq
      · exact untouched_trans
          (untouched_of_writesOnly hn (hslash x (List.mem_cons_self x rest)) hx hw) hun

/-- Missing-mapping tolerance, where the code has it: on a pod whose engine type
resolves, when the catalog definition of an identifier `n` of
`counterGaugeMetricNames` or `histogramMetricNames` has no mapping for that
engine type, `fetchMetrics` returns `(nil, false)`, and the scalar and the
histogram pipeline both return and leave the key `n` of the pod-scoped map and
every key `m + "/" + n` of the pod-model map as they were. The identifiers of
the two lists are taken to contain no `/`, and the label lookup not to read the
metric maps. -/
theorem missing_mapping_tolerance_of_resolved (E : Env) (pod : Pod)
    (allMetrics : String → Option MetricFamily) (n e : String) (metric : Metric)
    (hst : LabelsStable E)
    (hslash : ∀ x ∈ counterGaugeMetricNames E.names ++ histogramMetricNames E.names, NoSlash x)
    (hn : n ∈ counterGaugeMetricNames E.names ∨ n ∈ histogramMetricNames E.names)
    (hdef : E.Metrics n = some metric)
    (he : resolvedEngine E pod = some e)
    (hmap : metric.EngineMetricsNameMapping e = none) :
    fetchMetrics E pod allMetrics n = Outcome.returned none ∧
    (∃ q, updateSimpleMetricFromRawMetrics E pod allMetrics = Outcome.returned q ∧
      q.Metrics.Load n = pod.Metrics.Load n ∧
      ∀ m : String,
        q.ModelMetrics.Load (m ++ "/" ++ n) = pod.ModelMetrics.Load (m ++ "/" ++ n)) ∧
    (∃ q, updateHistogramMetricFromRawMetrics E pod allMetrics = Outcome.returned q ∧
      q.Metrics.Load n = pod.Metrics.Load n ∧
      ∀ m : String,
        q.ModelMetrics.Load (m ++ "/" ++ n) = pod.ModelMetrics.Load (m ++ "/" ++ n)) := by
  have hnslash : NoSlash n := by
    apply hslash
    rcases hn with hn | hn
    · exact List.mem_append_left _ hn
    · exact List.mem_append_right _ hn
  refine ⟨?_, ?_, ?_⟩
  · rw [fetchMetrics_eq]
    simp [hdef, he, fetchRaw, hmap]
  · obtain ⟨q, hq, _, hun⟩ :=
      forRange_metricBody_untouched E hst allMetrics
        (fun n metric fam => updateSimpleSample E n metric.MetricScope fam.FamilyType)
        (fun n metric fam p a =>
          updateSimpleSample_writesOnly E n metric.MetricScope fam.FamilyType p a)
        e n metric hnslash hdef hmap (counterGaugeMetricNames E.names)
        (fun x hx => hslash x (List.mem_append_left _ hx)) pod he
    refine ⟨q, ?_, hun.1, hun.2⟩
    rw [updateSimpleMetricFromRawMetrics, updateSimpleMetric_eq_metricBody]
    exact hq
  · obtain ⟨q, hq, _, hun⟩ :=
      forRange_metricBody_untouched E hst allMetrics
        (fun n metric _ => updateHistogramSample E n metric.MetricScope)
        (fun n metric _ p a => updateHistogramSample_writesOnly E n metric.MetricScope p a)
        e n metric hnslash hdef hmap (histogramMetricNames E.names)
        (fun x hx => hslash x (List.mem_append_right _ hx)) pod he
    refine ⟨q, ?_, hun.1, hun.2⟩
    rw [updateHistogramMetricFromRawMetrics, updateHistogramMetric_eq_metricBody]
    exact hq

theorem labelsStable_sampleEnv : LabelsStable sampleEnv :=
  fun _ _ _ _ => rfl

/-- Missing-mapping tolerance on a pod whose engine label is `sglang`, for which
the definition of `queue_waiting` has no mapping. -/
theorem missing_mapping_tolerance_of_resolved_example :
    fetchMetrics sampleEnv (enginePod "sglang") waitingFamilies "queue_waiting"
      = Outcome.returned none ∧
    (∃ q, updateSimpleMetricFromRawMetrics sampleEnv (enginePod "sglang") waitingFamilies
        = Outcome.returned q ∧
      q.Metrics.Load "queue_waiting" = (enginePod "sglang").Metrics.Load "queue_waiting" ∧
      ∀ m : String,
        q.ModelMetrics.Load (m ++ "/" ++ "queue_waiting")
          = (enginePod "sglang").ModelMetrics.Load (m ++ "/" ++ "queue_waiting")) ∧
    (∃ q, updateHistogramMetricFromRawMetrics sampleEnv (enginePod "sglang") waitingFamilies
        = Outcome.returned q ∧
      q.Metrics.Load "queue_waiting" = (enginePod "sglang").Metrics.Load "queue_waiting" ∧
      ∀ m : String,
        q.ModelMetrics.Load (m ++ "/" ++ "queue_waiting")
          = (enginePod "sglang").ModelMetrics.Load (m ++ "/" ++ "queue_waiting")) :=
  missing_mapping_tolerance_of_resolved sampleEnv (enginePod "sglang") waitingFamilies "queue_waiting"
    "sglang" _ labelsStable_sampleEnv (by decide) (Or.inl (by decide)) rfl rfl rfl

/-- C6 (the code departs from the claim): missing-mapping tolerance does not
hold for every pod. The catalog defines `queue_waiting`, an identifier of
`counterGaugeMetricNames`, with no mapping for any engine; on a pod whose
engine label is present with the empty string as its value, so that the lookup
returns the empty string and a nil error, `fetchMetrics` does not return
`(nil, false)` and `updateSimpleMetricFromRawMetrics` does not return: both
panic before the mapping of the definition is read. -/
theorem missing_mapping_empty_engine_label_panics :
    unmappedEnv.getPodLabel (enginePod "") unmappedEnv.engineLabel = ("", none) ∧
    "queue_waiting" ∈ counterGaugeMetricNames unmappedEnv.names ∧
    (∃ metric, unmappedEnv.Metrics "queue_waiting" = some metric ∧
      ∀ engine : String, metric.EngineMetricsNameMapping engine = none) ∧
    fetchMetrics unmappedEnv (enginePod "") waitingFamilies "queue_waiting"
      = Outcome.panicked ∧
    updateSimpleMetricFromRawMetrics unmappedEnv (enginePod "") waitingFamilies
      = Outcome.panicked := by
  refine ⟨rfl, by decide, ⟨_, rfl, fun _ => rfl⟩, ?_, ?_⟩
  · exact fetchMetrics_panicked_of_empty_engine unmappedEnv (enginePod "") waitingFamilies
      "queue_waiting" _ rfl rfl
  · rfl

theorem updatePodRecord_podModel_load (E : Env) (p : Pod) (m n : String) (v : MetricValue)
    (hm : m ≠ "") :
    (updatePodRecord E p m n MetricScope.PodModelMetricScope v).1.ModelMetrics.Load
      (m ++ "/" ++ n) = some v := by
  simp [updatePodRecord, hm, getPodModelMetricName, SyncMap.Load, SyncMap.Store]

/-- The scalar loop over a list of identifiers keeps, and at the identifier `n`
establishes, the entry of the single sample of the family of `n`. -/
theorem forRange_updateSimpleMetric_holds (E : Env) (hst : LabelsStable E)
    (allMetrics : String → Option MetricFamily) (n e r m : String) (metric : Metric)
    (fam : MetricFamily) (a : DtoMetric) (x : Float)
    (hn : NoSlash n)
    (hdef : E.Metrics n = some metric)
    (hscope : metric.MetricScope = MetricScope.PodModelMetricScope)
    (hmap : metric.EngineMetricsNameMapping e = some r)
    (hfam : allMetrics r = some fam)
    (hsingle : fam.Metric = [a])
    (hlabel : (E.GetLabelValueForKey a "model_name").1 = m)
    (hm : m ≠ "")
    (hx : E.GetCounterGaugeValue a fam.FamilyType = Except.ok x) :
    ∀ (names : List String), (∀ y ∈ names, NoSlash y) →
      ∀ p : Pod, resolvedEngine E p = some e →
        ∃ q, forRange (updateSimpleMetric E allMetrics) names p = Outcome.returned q ∧
          SameIdentity p q ∧
          (p.ModelMetrics.Load (m ++ "/" ++ n) = some (MetricValue.SimpleMetricValue x) →
            q.ModelMetrics.Load (m ++ "/" ++ n) = some (MetricValue.SimpleMetricValue x)) ∧
          (n ∈ names →
            q.ModelMetrics.Load (m ++ "/" ++ n) = some (MetricValue.SimpleMetricValue x))
  | [], _, p, _ => ⟨p, rfl, sameIdentity_refl p, id, fun h => absurd h (List.not_mem_nil n)⟩
  | y :: rest, hslash, p, he => by
    have hrest : ∀ z ∈ rest, NoSlash z := fun z hz => hslash z (List.mem_cons_of_mem y hz)
    obtain ⟨p1, hp1, hw⟩ :=
      metricBody_writesOnly E allMetrics (fun n _ => n)
        (fun n metric fam => updateSimpleSample E n metric.MetricScope fam.FamilyType)
        (fun n metric fam p a =>
          updateSimpleSample_writesOnly E n metric.MetricScope fam.FamilyType p a)
        y p e he
    rw [← updateSimpleMetric_eq_metricBody] at hp1
    have he1 : resolvedEngine E p1 = some e := by
      rw [resolvedEngine_of_sameIdentity hst hw.1]
      exact he
    obtain ⟨q, hq, hid, hkeep, hest⟩ :=
      forRange_updateSimpleMetric_holds E hst allMetrics n e r m metric fam a x hn hdef hscope
        hmap hfam hsingle hlabel hm hx rest hrest p1 he1
    have hrun : forRange (updateSimpleMetric E allMetrics) (y :: rest) p = Outcome.returned q := by
      simp only [forRange, hp1]
      exact hq
    by_cases hy : y = n
    · subst hy
      have hp1val : p1.ModelMetrics.Load (m ++ "/" ++ y)
          = some (MetricValue.SimpleMetricValue x) := by
        have hbody := metricBody_eq E allMetrics (fun n _ => n)
          (fun n metric fam => updateSimpleSample E n metric.MetricScope fam.FamilyType)
          y p e he
        rw [← updateSimpleMetric_eq_metricBody, hp1] at hbody
        simp only [hdef, fetchRaw, hmap, hfam, hsingle, List.foldl_cons, List.foldl_nil,
          updateSimpleSample, hx, hlabel, hscope] at hbody
        injection hbody with hbody
        rw [hbody]
        exact updatePodRecord_podModel_load E p m y _ hm
      exact ⟨q, hrun, sameIdentity_trans hw.1 hid, fun _ => hkeep hp1val, fun _ => hkeep hp1val⟩
    · have hun : Untouched n p p1 :=
        untouched_of_writesOnly hn (hslash y (List.mem_cons_self y rest)) hy hw
      refine ⟨q, hrun, sameIdentity_trans hw.1 hid, ?_, ?_⟩
      · intro hp
        apply hkeep
        rw [hun.2 m]
        exact hp
      · intro hmem
        rcases List.mem_cons.mp hmem with h | h
        · exact absurd h.symm hy
        · exact hest h

/-- Scalar extraction, where the code has it: on a pod whose engine type
resolves, for an identifier `n` of `counterGaugeMetricNames` that the catalog
defines with the pod-model scope and maps, for that engine type, to a raw name
`r`, when the payload holds under `r` a family with a single sample, labelled
`model_name = m` with `m` not empty, whose value extracts as `x`, then
`updateSimpleMetricFromRawMetrics` returns and the pod-model map holds
`SimpleMetricValue x` under `m + "/" + n`. The identifiers of the list are taken
to contain no `/`, and the label lookup not to read the metric maps. -/
theorem scalar_extraction_of_resolved (E : Env) (pod : Pod) (allMetrics : String → Option MetricFamily)
    (n e r m : String) (metric : Metric) (fam : MetricFamily) (a : DtoMetric) (x : Float)
    (hst : LabelsStable E)
    (hslash : ∀ y ∈ counterGaugeMetricNames E.names, NoSlash y)
    (hn : n ∈ counterGaugeMetricNames E.names)
    (hdef : E.Metrics n = some metric)
    (hscope : metric.MetricScope = MetricScope.PodModelMetricScope)
    (he : resolvedEngine E pod = some e)
    (hmap : metric.EngineMetricsNameMapping e = some r)
    (hfam : allMetrics r = some fam)
    (hsingle : fam.Metric = [a])
    (hlabel : (E.GetLabelValueForKey a "model_name").1 = m)
    (hm : m ≠ "")
    (hx : E.GetCounterGaugeValue a fam.FamilyType = Except.ok x) :
    ∃ q, updateSimpleMetricFromRawMetrics E pod allMetrics = Outcome.returned q ∧
      q.ModelMetrics.Load (m ++ "/" ++ n) = some (MetricValue.SimpleMetricValue x) := by
  obtain ⟨q, hq, _, _, hest⟩ :=
    forRange_updateSimpleMetric_holds E hst allMetrics n e r m metric fam a x (hslash n hn) hdef
      hscope hmap hfam hsingle hlabel hm hx (counterGaugeMetricNames E.names) hslash pod he
  exact ⟨q, hq, hest hn⟩

/-- The scalar-extraction scenario: identifier `queue_waiting`, a gauge family
with one sample labelled `model_name = m1` of value 3.0, on a pod whose engine
label is `vllm`; the entry `m1/queue_waiting` is the scalar 3.0. -/
theorem scalar_extraction_of_resolved_example :
    ∃ q, updateSimpleMetricFromRawMetrics sampleEnv (enginePod "vllm") waitingFamilies
        = Outcome.returned q ∧
      q.ModelMetrics.Load ("m1" ++ "/" ++ "queue_waiting")
        = some (MetricValue.SimpleMetricValue 3.0) :=
  scalar_extraction_of_resolved sampleEnv (enginePod "vllm") waitingFamilies "queue_waiting" "vllm"
    "vllm:num_requests_waiting" "m1" _ _ _ 3.0 labelsStable_sampleEnv (by decide) (by decide)
    rfl rfl rfl rfl rfl rfl rfl (by decide) rfl

/-- C7 (the code departs from the claim): scalar extraction does not hold for
every pod. The catalog defines `queue_waiting`, an identifier of
`counterGaugeMetricNames`, with the pod-model scope and maps it for every
engine to `vllm:num_requests_waiting`; the payload holds under that raw name a
gauge family with a single sample, labelled `model_name = m1`, whose value
extracts as 3.0. On a pod whose engine label is present with the empty string
as its value `updateSimpleMetricFromRawMetrics` panics, so the pod-model map
never gets the entry `m1/queue_waiting`; on the same environment and payload a
pod whose engine label is `vllm` gets it. -/
theorem scalar_extraction_empty_engine_label_panics :
    mappedEnv.getPodLabel (enginePod "") mappedEnv.engineLabel = ("", none) ∧
    "queue_waiting" ∈ counterGaugeMetricNames mappedEnv.names ∧
    (∃ metric fam a,
      mappedEnv.Metrics "queue_waiting" = some metric ∧
      metric.MetricScope = MetricScope.PodModelMetricScope ∧
      (∀ engine : String,
        metric.EngineMetricsNameMapping engine = some "vllm:num_requests_waiting") ∧
      waitingFamilies "vllm:num_requests_waiting" = some fam ∧
      fam.Metric = [a] ∧
      (mappedEnv.GetLabelValueForKey a "model_name").1 = "m1" ∧
      mappedEnv.GetCounterGaugeValue a fam.FamilyType = Except.ok 3.0) ∧
    updateSimpleMetricFromRawMetrics mappedEnv (enginePod "") waitingFamilies
      = Outcome.panicked ∧
    (∃ q, updateSimpleMetricFromRawMetrics mappedEnv (enginePod "vllm") waitingFamilies
        = Outcome.returned q ∧
      q.ModelMetrics.Load ("m1" ++ "/" ++ "queue_waiting")
        = some (MetricValue.SimpleMetricValue 3.0)) := by
  refine ⟨rfl, by decide, ⟨_, _, _, rfl, rfl, fun _ => rfl, rfl, rfl, rfl, rfl⟩, rfl, ?_⟩
  exact scalar_extraction_of_resolved mappedEnv (enginePod "vllm") waitingFamilies
    "queue_waiting" "vllm" "vllm:num_requests_waiting" "m1" _ _ _ 3.0 (fun _ _ _ _ => rfl)
    (by decide) (by decide) rfl rfl rfl rfl rfl rfl rfl (by decide) rfl

/-! ## Per-sample failure isolation -/

theorem applyWrites_append (E : Env) (p : Pod) (ws ws1 : List PodWrite) :
    applyWrites E p (ws ++ ws1) = applyWrites E (applyWrites E p ws) ws1 := by
  simp [applyWrites, List.foldl_append]

theorem applyWrites_sameIdentity (E : Env) (ws : List PodWrite) (p : Pod) :
    SameIdentity p (applyWrites E p ws) := by
  induction ws generalizing p with
  | nil => exact sameIdentity_refl p
  | cons w ws ih =>
    exact sameIdentity_trans
      (updatePodRecord_writesOnly E p w.modelName w.metricName w.scope w.value).1 (ih _)

/-- The sample loop of the scalar pipeline performs the writes of the samples
whose extraction succeeds, in sample order. -/
theorem foldl_updateSimpleSample (E : Env) (n : String) (scope : MetricScope)
    (fam : MetricFamily) (p : Pod) :
    fam.Metric.foldl (updateSimpleSample E n scope fam.FamilyType) p
      = applyWrites E p (simpleFamilyWrites E n scope fam) := by
  unfold simpleFamilyWrites applyWrites
  generalize fam.Metric = l
  induction l generalizing p with
  | nil => rfl
  | cons a l ih =>
    simp only [List.foldl_cons, List.filterMap_cons]
    cases hx : E.GetCounterGaugeValue a fam.FamilyType with
    | error err =>
      simp only [updateSimpleSample, hx]
      exact ih p
    | ok x =>
      simp only [updateSimpleSample, hx, List.foldl_cons]
      exact ih _

theorem forRange_updateSimpleMetric_eq (E : Env) (hst : LabelsStable E)
    (allMetrics : String → Option MetricFamily) (e : String) :
    ∀ (names : List String) (p : Pod), resolvedEngine E p = some e →
      forRange (updateSimpleMetric E allMetrics) names p
        = Outcome.returned (applyWrites E p (simpleWrites E e allMetrics names))
  | [], _, _ => rfl
  | y :: rest, p, he => by
    have hbody : updateSimpleMetric E allMetrics y p
        = Outcome.returned (applyWrites E p (simpleWrites E e allMetrics [y])) := by
      rw [updateSimpleMetric_eq_metricBody, metricBody_eq E allMetrics _ _ y p e he]
      congr 1
      simp only [simpleWrites, List.flatMap_cons, List.flatMap_nil, List.append_nil]
      cases E.Metrics y with
      | none => rfl
      | some metric =>
        simp only
        cases fetchRaw metric allMetrics e with
        | none => rfl
        | some fam => exact foldl_updateSimpleSample E y metric.MetricScope fam p
    have he1 : resolvedEngine E (applyWrites E p (simpleWrites E e allMetrics [y])) = some e := by
      rw [resolvedEngine_of_sameIdentity hst (applyWrites_sameIdentity E _ p)]
      exact he
    have hsplit : simpleWrites E e allMetrics (y :: rest)
        = simpleWrites E e allMetrics [y] ++ simpleWrites E e allMetrics rest := by
      simp [simpleWrites, List.flatMap_cons]
    simp only [forRange, hbody]
    rw [forRange_updateSimpleMetric_eq E hst allMetrics e rest _ he1, hsplit, applyWrites_append]

/-- Per-sample failure isolation, where the code has it: on a pod whose engine
type resolves, `updateSimpleMetricFromRawMetrics` returns, and the pod it leaves
is the one obtained by making, in list order over `counterGaugeMetricNames` and
in sample order within each family, the `updatePodRecord` calls of exactly the
samples whose value extraction succeeds, the error of a call being dropped. -/
theorem updateSimpleMetricFromRawMetrics_eq_applyWrites (E : Env) (hst : LabelsStable E)
    (pod : Pod) (allMetrics : String → Option MetricFamily) (e : String)
    (he : resolvedEngine E pod = some e) :
    updateSimpleMetricFromRawMetrics E pod allMetrics
      = Outcome.returned
          (applyWrites E pod (simpleWrites E e allMetrics (counterGaugeMetricNames E.names))) :=
  forRange_updateSimpleMetric_eq E hst allMetrics e _ pod he

/-- C8 (the code departs from the claim): `updateSimpleMetricFromRawMetrics`
does not return normally for every pod. On a pod whose engine label is present
with the empty string as its value, the first identifier of
`counterGaugeMetricNames` that the catalog defines makes `fetchMetrics` panic,
and no later sample or metric is written. -/
theorem updateSimpleMetricFromRawMetrics_empty_engine_label_panics :
    sampleEnv.getPodLabel (enginePod "") sampleEnv.engineLabel = ("", none) ∧
    updateSimpleMetricFromRawMetrics sampleEnv (enginePod "") waitingFamilies
      = Outcome.panicked := by
  refine ⟨rfl, ?_⟩
  rfl

/-! ## Label-valued extraction -/

/-- What the label pipeline reads for an identifier `L` with definition
`metric`, on a pod whose engine type resolves to `e`: the family under the raw
name mapped for `e` by the catalog entry of `metric.RawMetricName`, not by
`metric` itself. -/
theorem updateQueryLabelMetric_eq (E : Env) (allMetrics : String → Option MetricFamily)
    (L : String) (p : Pod) (e : String) (metric : Metric)
    (he : resolvedEngine E p = some e) (hdef : E.Metrics L = some metric) :
    updateQueryLabelMetric E allMetrics L p =
      Outcome.returned
        (match E.Metrics metric.RawMetricName with
         | none => p
         | some metric1 =>
           match fetchRaw metric1 allMetrics e with
           | none => p
           | some fam => fam.Metric.foldl (updateQueryLabelSample E L metric.MetricScope) p) := by
  rw [updateQueryLabelMetric_eq_metricBody, metricBody_eq E allMetrics _ _ L p e he]
  simp only [hdef]

/-- When the raw name of a label-valued definition is not itself an identifier
of the catalog, the label pipeline writes nothing for it, whatever the payload
holds. -/
theorem updateQueryLabelMetric_skips (E : Env) (allMetrics : String → Option MetricFamily)
    (L : String) (p : Pod) (metric : Metric)
    (hdef : E.Metrics L = some metric) (hraw : E.Metrics metric.RawMetricName = none) :
    updateQueryLabelMetric E allMetrics L p = Outcome.returned p := by
  simp [updateQueryLabelMetric, hdef, fetchMetrics, hraw]

/-- C10 (the code departs from the claim): the label pipeline does not read the
family of the raw name that the definition of `max_lora` maps for the engine of
the pod. The catalog defines `max_lora` with the pod scope and maps it for
`vllm` to `vllm:lora_requests_info`, the payload holds that family with one
sample carrying `max_lora = 4`, and yet the pipeline returns the pod with no
entry under `max_lora`: it fetches with the raw name `lora_requests_info` as
the identifier, which the catalog does not define. -/
theorem updateQueryLabelMetricFromRawMetrics_ignores_own_mapping :
    "max_lora" ∈ labelQueryMetricNames sampleEnv.names ∧
    (∃ metric fam a,
      sampleEnv.Metrics "max_lora" = some metric ∧
      metric.MetricScope = MetricScope.PodMetricScope ∧
      resolvedEngine sampleEnv (enginePod "vllm") = some "vllm" ∧
      metric.EngineMetricsNameMapping "vllm" = some "vllm:lora_requests_info" ∧
      loraFamilies "vllm:lora_requests_info" = some fam ∧
      fam.Metric = [a] ∧
      (sampleEnv.GetLabelValueForKey a "max_lora").1 = "4") ∧
    updateQueryLabelMetricFromRawMetrics sampleEnv (enginePod "vllm") loraFamilies
      = Outcome.returned (enginePod "vllm") ∧
    (enginePod "vllm").Metrics.Load "max_lora" = none := by
  refine ⟨by decide, ⟨_, _, _, rfl, rfl, rfl, rfl, rfl, rfl, rfl⟩, rfl, rfl⟩

/-! ## Derived queries: theorems -/

/-- The state after one call of `queryUpdatePromQLMetrics`. -/
theorem queryUpdatePromQLMetrics_fst {B : Type} (E : Env) (api : B → String → QueryReply × B)
    (metric : Metric) (labels : String → Option String) (m y : String) (port : Int)
    (t : PromState B) :
    (queryUpdatePromQLMetrics E api metric labels m y port t).1 =
      { pod :=
          match (api t.backend (E.BuildQuery metric.PromQL labels)).1.err with
          | some _ => t.pod
          | none =>
            (updatePodRecord E t.pod m y metric.MetricScope
              (MetricValue.PrometheusMetricValue
                (api t.backend (E.BuildQuery metric.PromQL labels)).1.result)).1
        backend := (api t.backend (E.BuildQuery metric.PromQL labels)).2
        queries := t.queries ++ [{ metricName := y, modelName := m,
                                   query := E.BuildQuery metric.PromQL labels }] } := by
  simp only [queryUpdatePromQLMetrics]
  cases (api t.backend (E.BuildQuery metric.PromQL labels)).1.err with
  | some err => rfl
  | none =>
    simp only
    cases (updatePodRecord E t.pod m y metric.MetricScope
        (MetricValue.PrometheusMetricValue
          (api t.backend (E.BuildQuery metric.PromQL labels)).1.result)).2 <;> rfl

/-- One call of `queryUpdatePromQLMetrics` executes one query, recorded for its
identifier, and writes at most an entry of that identifier; with the pod scope
it leaves the pod-model map alone. -/
theorem queryUpdatePromQLMetrics_effect {B : Type} (E : Env) (api : B → String → QueryReply × B)
    (metric : Metric) (labels : String → Option String) (m y : String) (port : Int)
    (t : PromState B) :
    (queryUpdatePromQLMetrics E api metric labels m y port t).1.queries
      = t.queries ++ [{ metricName := y, modelName := m,
                        query := E.BuildQuery metric.PromQL labels }] ∧
    WritesOnly y t.pod (queryUpdatePromQLMetrics E api metric labels m y port t).1.pod ∧
    (metric.MetricScope = MetricScope.PodMetricScope →
      (queryUpdatePromQLMetrics E api metric labels m y port t).1.pod.ModelMetrics
        = t.pod.ModelMetrics) := by
  rw [queryUpdatePromQLMetrics_fst]
  refine ⟨rfl, ?_, ?_⟩
  · simp only
    cases (api t.backend (E.BuildQuery metric.PromQL labels)).1.err with
    | some err => exact writesOnly_refl y t.pod
    | none => exact updatePodRecord_writesOnly E t.pod m y metric.MetricScope _
  · intro hpod
    simp only
    cases (api t.backend (E.BuildQuery metric.PromQL labels)).1.err with
    | some err => rfl
    | none =>
      simp only [hpod]
      rfl

/-- One iteration of the metric loop of `updateMetricFromPromQL` on a pod that
serves no model, seen from a pod-model-scoped identifier `n`. -/
theorem updatePromQLMetric_zero_models {B : Type} (E : Env) (api : B → String → QueryReply × B)
    (port : Int) (n : String) (metric : Metric)
    (hdef : E.Metrics n = some metric)
    (hscope : metric.MetricScope = MetricScope.PodModelMetricScope)
    (y : String) (t : PromState B) (hmodels : t.pod.Models.length = 0) :
    (∃ new, (updatePromQLMetric E api port y t).queries = t.queries ++ new ∧
      ∀ c ∈ new, c.metricName ≠ n) ∧
    SameIdentity t.pod (updatePromQLMetric E api port y t).pod ∧
    (updatePromQLMetric E api port y t).pod.Metrics.Load n = t.pod.Metrics.Load n ∧
    (updatePromQLMetric E api port y t).pod.ModelMetrics = t.pod.ModelMetrics ∧
    (y = n → updatePromQLMetric E api port y t = t) := by
  have hsame : (∃ new : List QueryCall, t.queries = t.queries ++ new ∧
        ∀ c ∈ new, c.metricName ≠ n) ∧
      SameIdentity t.pod t.pod ∧ t.pod.Metrics.Load n = t.pod.Metrics.Load n ∧
      t.pod.ModelMetrics = t.pod.ModelMetrics :=
    ⟨⟨[], by simp, fun c hc => absurd hc (List.not_mem_nil c)⟩, sameIdentity_refl _, rfl, rfl⟩
  unfold updatePromQLMetric
  cases hy : E.Metrics y with
  | none => exact ⟨hsame.1, hsame.2.1, hsame.2.2.1, hsame.2.2.2, fun _ => rfl⟩
  | some metricY =>
    simp only
    cases hsc : metricY.MetricScope with
    | PodMetricScope =>
      simp only
      have hne : y ≠ n := by
        intro h
        rw [h, hdef] at hy
        injection hy with hy
        rw [hy, hsc] at hscope
        cases hscope
      obtain ⟨hq, hw, hmm⟩ := queryUpdatePromQLMetrics_effect E api metricY
        (fun k => if k = "instance" then some (t.pod.PodIP ++ ":" ++ toString port) else none)
        "" y port t
      refine ⟨⟨_, hq, ?_⟩, hw.1, hw.2.1 n (Ne.symm hne), hmm hsc, fun h => absurd h hne⟩
      intro c hc
      rw [List.mem_singleton] at hc
      rw [hc]
      exact hne
    | PodModelMetricScope =>
      have hlen : ¬ t.pod.Models.length > 0 := by omega
      simp only
      rw [if_neg hlen]
      exact ⟨hsame.1, hsame.2.1, hsame.2.2.1, hsame.2.2.2, fun _ => rfl⟩
    | unsupported name => exact ⟨hsame.1, hsame.2.1, hsame.2.2.1, hsame.2.2.2, fun _ => rfl⟩

/-- The metric loop of `updateMetricFromPromQL` on a pod that serves no model,
seen from a pod-model-scoped identifier `n`. -/
theorem foldl_updatePromQLMetric_zero_models {B : Type} (E : Env)
    (api : B → String → QueryReply × B) (port : Int) (n : String) (metric : Metric)
    (hdef : E.Metrics n = some metric)
    (hscope : metric.MetricScope = MetricScope.PodModelMetricScope) :
    ∀ (names : List String) (t : PromState B), t.pod.Models.length = 0 →
      (∃ new, (names.foldl (fun acc y => updatePromQLMetric E api port y acc) t).queries
          = t.queries ++ new ∧ ∀ c ∈ new, c.metricName ≠ n) ∧
      (names.foldl (fun acc y => updatePromQLMetric E api port y acc) t).pod.Metrics.Load n
        = t.pod.Metrics.Load n ∧
      (names.foldl (fun acc y => updatePromQLMetric E api port y acc) t).pod.ModelMetrics
        = t.pod.ModelMetrics ∧
      names.foldl (fun acc y => updatePromQLMetric E api port y acc) t
        = (names.filter (fun y => decide (y ≠ n))).foldl
            (fun acc y => updatePromQLMetric E api port y acc) t
  | [], t, _ => ⟨⟨[], by simp, fun c hc => absurd hc (List.not_mem_nil c)⟩, rfl, rfl, rfl⟩
  | y :: rest, t, hmodels => by
    obtain ⟨⟨new1, hq1, hn1⟩, hid, hm1, hmm1, hskip⟩ :=
      updatePromQLMetric_zero_models E api port n metric hdef hscope y t hmodels
    have hmodels1 : (updatePromQLMetric E api port y t).pod.Models.length = 0 := by
      rw [hid.2.2.2]
      exact hmodels
    obtain ⟨⟨new2, hq2, hn2⟩, hm2, hmm2, hfilter⟩ :=
      foldl_updatePromQLMetric_zero_models E api port n metric hdef hscope rest
        (updatePromQLMetric E api port y t) hmodels1
    simp only [List.foldl_cons]
    refine ⟨⟨new1 ++ new2, ?_, ?_⟩, hm2.trans hm1, hmm2.trans hmm1, ?_⟩
    · rw [hq2, hq1, List.append_assoc]
    · intro c hc
      rcases List.mem_append.mp hc with h | h
      · exact hn1 c h
      · exact hn2 c h
    · by_cases hy : y = n
      · rw [hfilter, hskip hy]
        simp [List.filter_cons, hy]
      · rw [hfilter]
        simp [List.filter_cons, hy]

/-- C9: for a pod that serves no model and an identifier `n` of
`prometheusMetricNames` that the catalog defines with the pod-model scope,
`updateMetricFromPromQL` executes no query for `n`, leaves the entries of `n` in
both maps of the pod as they were, and ends in the state it reaches when `n` is
struck from the list: the other identifiers are processed as without it. -/
theorem derived_query_zero_models {B : Type} (E : Env) (api : B → String → QueryReply × B)
    (s : PromState B) (n : String) (metric : Metric)
    (_hn : n ∈ prometheusMetricNames E.names)
    (hdef : E.Metrics n = some metric)
    (hscope : metric.MetricScope = MetricScope.PodModelMetricScope)
    (hmodels : s.pod.Models.length = 0) :
    (∃ new, (updateMetricFromPromQL E api s).queries = s.queries ++ new ∧
      ∀ c ∈ new, c.metricName ≠ n) ∧
    (updateMetricFromPromQL E api s).pod.Metrics.Load n = s.pod.Metrics.Load n ∧
    (∀ m : String,
      (updateMetricFromPromQL E api s).pod.ModelMetrics.Load (m ++ "/" ++ n)
        = s.pod.ModelMetrics.Load (m ++ "/" ++ n)) ∧
    updateMetricFromPromQL E api s
      = ((prometheusMetricNames E.names).filter (fun y => decide (y ≠ n))).foldl
          (fun acc y => updatePromQLMetric E api (E.getPodMetricPort s.pod) y acc) s := by
  obtain ⟨hq, hm, hmm, hfilter⟩ :=
    foldl_updatePromQLMetric_zero_models E api (E.getPodMetricPort s.pod) n metric hdef hscope
      (prometheusMetricNames E.names) s hmodels
  refine ⟨hq, hm, ?_, hfilter⟩
  intro m
  unfold updateMetricFromPromQL
  rw [hmm]

/-- Witness of C9: the pod-model derived metric `p95_ttft_5m` on a pod that
serves no model. -/
theorem derived_query_zero_models_witness :
    (∃ new, (updateMetricFromPromQL sampleEnv sampleApi sampleStart).queries
        = sampleStart.queries ++ new ∧ ∀ c ∈ new, c.metricName ≠ "p95_ttft_5m") ∧
    (updateMetricFromPromQL sampleEnv sampleApi sampleStart).pod.Metrics.Load "p95_ttft_5m"
      = sampleStart.pod.Metrics.Load "p95_ttft_5m" ∧
    (∀ m : String,
      (updateMetricFromPromQL sampleEnv sampleApi sampleStart).pod.ModelMetrics.Load
          (m ++ "/" ++ "p95_ttft_5m")
        = sampleStart.pod.ModelMetrics.Load (m ++ "/" ++ "p95_ttft_5m")) ∧
    updateMetricFromPromQL sampleEnv sampleApi sampleStart
      = ((prometheusMetricNames sampleEnv.names).filter
            (fun y => decide (y ≠ "p95_ttft_5m"))).foldl
          (fun acc y =>
            updatePromQLMetric sampleEnv sampleApi
              (sampleEnv.getPodMetricPort sampleStart.pod) y acc) sampleStart :=
  derived_query_zero_models sampleEnv sampleApi sampleStart "p95_ttft_5m" _ (by decide) rfl rfl
    rfl

end Aibrix
